import Mathlib

/-!
Verification of the PybricksPilot telemetry-and-remote-control agent
(`src/app/assets/pybrickspilot.py`).

The Python module is shallowly embedded: dictionaries of optional JSON
fields become structures of `Option` fields, numeric values become `ℚ`
(angles, speeds, distances) or `ℤ` (timestamps, intervals, indices), and
the `while` loops of the heading/arc normalisation routines become
well-founded recursive functions with the same guards and bodies.
-/

namespace PybricksPilot

/-- The four stop behaviours of `pybricks.parameters.Stop` used by the
module (`Stop.HOLD`, `Stop.BRAKE`, `Stop.COAST`, `Stop.COAST_SMART`). -/
inductive Stop where
  | hold
  | brake
  | coast
  | coast_smart
  deriving Repr, DecidableEq

/-- Stop-behavior resolution inlined in `_execute_single_command`
(lines 444-446 and 464-471): the string defaults to `"hold"` when the
field is absent, then an exact-match `if`/`elif` chain selects the stop
parameter, with `Stop.HOLD` as the fallback. -/
def single_stop_param (stop_behavior : Option String) : Stop :=
  let sb := stop_behavior.getD "hold"
  if sb = "coast_smart" then Stop.coast_smart
  else if sb = "coast" then Stop.coast
  else if sb = "brake" then Stop.brake
  else Stop.hold

/-- Embeds `_resolve_stop_behavior` (lines 998-1006), used by the generated
pseudo-program helpers: `(stop_behavior or "hold").lower()` is matched
against the alias list `["coast_smart", "smart", "coast-smart"]`, then
`"coast"`, then `"brake"`, with `Stop.HOLD` as the fallback.
`py_lower` models Python's `str.lower()` (ASCII case folding), applied to
`stop_behavior or "hold"` before matching. -/
def py_lower (s : String) : String :=
  String.mk (s.data.map Char.toLower)

def resolve_stop_behavior (stop_behavior : Option String) : Stop :=
  let behavior :=
    py_lower
      (match stop_behavior with
        | none => "hold"
        | some s => if s = "" then "hold" else s)
  if behavior = "coast_smart" ∨ behavior = "smart" ∨ behavior = "coast-smart" then
    Stop.coast_smart
  else if behavior = "coast" then Stop.coast
  else if behavior = "brake" then Stop.brake
  else Stop.hold

/-- First loop of `_normalize_heading` (line 1027):
`while normalized <= -180: normalized += 360`. -/
def addLoopLe (x : ℚ) : ℚ :=
  if h : x ≤ -180 then addLoopLe (x + 360) else x
termination_by (⌈-x / 360⌉).toNat
decreasing_by
  have h1 : (-(x + 360) / 360 : ℚ) = -x / 360 - 1 := by ring
  have h2 : ⌈(-(x + 360) / 360 : ℚ)⌉ = ⌈(-x / 360 : ℚ)⌉ - 1 := by
    rw [h1, Int.ceil_sub_one]
  have h3 : (0 : ℚ) < -x / 360 := by linarith
  have h4 : 0 < ⌈(-x / 360 : ℚ)⌉ := Int.ceil_pos.mpr h3
  omega

/-- Second loop of `_normalize_heading` (line 1029) and first loop of the
arc sweep normalisation (line 582): `while angle > 180: angle -= 360`. -/
def subLoop (x : ℚ) : ℚ :=
  if h : x > 180 then subLoop (x - 360) else x
termination_by (⌈x / 360⌉).toNat
decreasing_by
  have h1 : ((x - 360) / 360 : ℚ) = x / 360 - 1 := by ring
  have h2 : ⌈((x - 360) / 360 : ℚ)⌉ = ⌈(x / 360 : ℚ)⌉ - 1 := by
    rw [h1, Int.ceil_sub_one]
  have h3 : (0 : ℚ) < x / 360 := by linarith
  have h4 : 0 < ⌈(x / 360 : ℚ)⌉ := Int.ceil_pos.mpr h3
  omega

/-- Second loop of the arc sweep normalisation in `_execute_single_command`
(line 584): `while angle < -180: angle += 360`. -/
def addLoopLt (x : ℚ) : ℚ :=
  if h : x < -180 then addLoopLt (x + 360) else x
termination_by (⌈-x / 360⌉).toNat
decreasing_by
  have h1 : (-(x + 360) / 360 : ℚ) = -x / 360 - 1 := by ring
  have h2 : ⌈(-(x + 360) / 360 : ℚ)⌉ = ⌈(-x / 360 : ℚ)⌉ - 1 := by
    rw [h1, Int.ceil_sub_one]
  have h3 : (0 : ℚ) < -x / 360 := by linarith
  have h4 : 0 < ⌈(-x / 360 : ℚ)⌉ := Int.ceil_pos.mpr h3
  omega

/-- Embeds `_normalize_heading` (lines 1023-1031) on a non-`None` angle:
add 360 while `<= -180`, then subtract 360 while `> 180`. -/
def normalize_heading (angle : ℚ) : ℚ :=
  subLoop (addLoopLe angle)

/-- The arc sweep normalisation of `_execute_single_command`
(lines 581-585): subtract 360 while `> 180`, then add 360 while `< -180`. -/
def arc_normalize (angle : ℚ) : ℚ :=
  addLoopLt (subLoop angle)

/-- A parsed JSON command object. Each optional field models one key read
with `command.get(...)` somewhere in `_execute_single_command` or
`_execute_command_sequence`; an absent key is `none`. -/
structure Command where
  action : Option String := none
  stop_behavior : Option String := none
  distance : Option ℚ := none
  speed : Option ℚ := none
  angle : Option ℚ := none
  startAngle : Option ℚ := none
  endAngle : Option ℚ := none
  radius : Option ℚ := none
  turn_rate : Option ℚ := none
  motor : Option String := none
  enabled : Option Bool := none
  interval : Option ℤ := none
  program_number : Option ℤ := none
  deriving Repr, DecidableEq

/-- The motion-action list of `_execute_command_sequence` (line 395):
`["drive", "turn", "arc"]`. -/
def motion_actions : List String := ["drive", "turn", "arc"]

/-- One iteration of the loop in `_execute_command_sequence`
(lines 391-414): for a command whose `action` is a motion action, the
cloned command's `stop_behavior` is overwritten with `"hold"` when
`i == len(commands) - 1` and `"coast_smart"` otherwise; any other command
is passed through unchanged. `n` is the sequence length, `i` the index. -/
def sequence_step (n i : Nat) (cmd : Command) : Command :=
  match cmd.action with
  | some a =>
      if a ∈ motion_actions then
        { cmd with stop_behavior := if i = n - 1 then some "hold" else some "coast_smart" }
      else cmd
  | none => cmd

/-- Embeds `_execute_command_sequence` (lines 382-419) as the list of effective
sub-commands handed to `_execute_single_command`, in execution order. -/
def execute_command_sequence (commands : List Command) : List Command :=
  commands.mapIdx fun i cmd => sequence_step commands.length i cmd

/-- The sweep angle an `arc` command executes with
(`_execute_single_command`, lines 570-587): the `angle` field when
present; otherwise, when both `startAngle` and `endAngle` are present,
`endAngle - startAngle` run through the two normalisation loops; `none`
when neither source is available (the command is then rejected with
"Arc command missing angle parameter"). -/
def arc_angle (cmd : Command) : Option ℚ :=
  match cmd.angle with
  | some a => some a
  | none =>
      match cmd.startAngle, cmd.endAngle with
      | some s, some e => some (arc_normalize (e - s))
      | _, _ => none

/-- The telemetry-related module globals `_telemetry_enabled`,
`_telemetry_interval_ms` and `_last_telemetry_time` (lines 55-57). -/
structure TelemetryState where
  enabled : Bool
  interval_ms : ℤ
  last_time : ℤ
  deriving Repr, DecidableEq

/-- The initial values of the telemetry globals (lines 55-57). -/
def init_telemetry : TelemetryState :=
  { enabled := true, interval_ms := 100, last_time := 0 }

/-- Embeds `set_telemetry_enabled` (lines 106-110). -/
def set_telemetry_enabled (s : TelemetryState) (enabled : Bool) : TelemetryState :=
  { s with enabled := enabled }

/-- Embeds `set_telemetry_interval` (lines 113-117): stores `max(50, interval_ms)`. -/
def set_telemetry_interval (s : TelemetryState) (interval_ms : ℤ) : TelemetryState :=
  { s with interval_ms := max 50 interval_ms }

/-- The gating of `send_telemetry` (lines 322-334): returns the updated
state and whether a record is emitted at time `now`. Nothing is emitted
when telemetry is disabled or when less than the configured interval has
elapsed since the last emission; otherwise the last-emission timestamp is
advanced to `now` and a record is emitted. -/
def send_telemetry (s : TelemetryState) (now : ℤ) : TelemetryState × Bool :=
  if ¬ s.enabled then (s, false)
  else if now - s.last_time < s.interval_ms then (s, false)
  else ({ s with last_time := now }, true)

/-- The timestamps of the records emitted by repeatedly calling
`send_telemetry` at the given times, in call order. -/
def telemetry_run (s : TelemetryState) : List ℤ → List ℤ
  | [] => []
  | t :: ts =>
      let r := send_telemetry s t
      if r.2 then t :: telemetry_run r.1 ts else telemetry_run r.1 ts

/-- The `set_telemetry` branch of `_execute_single_command`
(lines 634-641): `enabled = command.get("enabled", True)` is applied
unconditionally via `set_telemetry_enabled`, and the interval is applied
only when the `interval` value is truthy (present and non-zero). -/
def execute_set_telemetry (s : TelemetryState) (cmd : Command) : TelemetryState :=
  let enabled := cmd.enabled.getD true
  let s1 := set_telemetry_enabled s enabled
  match cmd.interval with
  | none => s1
  | some i => if i = 0 then s1 else set_telemetry_interval s1 i

/-- One entry of `_menu_programs`: the `num` and `name` keys used by the
menu navigation code. -/
structure MenuProgram where
  num : ℤ
  name : String
  deriving Repr, DecidableEq

/-- The hub-menu module globals (lines 62-68). -/
structure MenuState where
  programs : List MenuProgram
  current_index : ℤ
  active : Bool
  state : String
  last_button_time : ℤ
  run_requested : Bool
  deriving Repr, DecidableEq

/-- The initial values of the menu globals (lines 62-68). -/
def init_menu_state : MenuState :=
  { programs := [], current_index := 0, active := false, state := "idle",
    last_button_time := 0, run_requested := false }

/-- Embeds `_menu_button_debounce_ms` (line 67). -/
def menu_button_debounce_ms : ℤ := 300

/-- Embeds `init_hub_menu` (lines 749-776): stores the program list, resets the
index to 0, activates the menu and sets the state to `"menu"`; when a hub
is registered and the program list is non-empty the hub display shows the
literal number `1` (line 773, `_hub.display.number(1)`). The returned
`Option ℤ` is the number shown on the display, `none` when nothing is
displayed. The stop-button and light side effects are not modelled. -/
def init_hub_menu (s : MenuState) (hub_registered : Bool)
    (programs : List MenuProgram) : MenuState × Option ℤ :=
  let s1 := { s with programs := programs, current_index := 0,
                     active := true, state := "menu" }
  if hub_registered then
    (if programs ≠ [] then (s1, some 1) else (s1, none))
  else (s1, none)

/-- The three hub buttons consulted by `_process_menu_buttons`. -/
inductive Button where
  | left
  | right
  | center
  deriving Repr, DecidableEq

/-- Embeds `_process_menu_buttons` (lines 792-827): no-op unless a hub is
registered, the menu is active and the state is `"menu"`; no-op while the
debounce window since the last accepted press has not elapsed; otherwise
`LEFT` decrements and `RIGHT` increments the index modulo the program
count (Python `%`, matching `Int.emod` for a positive modulus), `CENTER`
sets the run-request flag, and every accepted press stores `now` into the
single shared `_menu_last_button_time`. -/
def process_menu_buttons (s : MenuState) (hub_registered : Bool) (now : ℤ)
    (pressed : List Button) : MenuState :=
  if ¬ hub_registered ∨ ¬ s.active ∨ s.state ≠ "menu" then s
  else if now - s.last_button_time < menu_button_debounce_ms then s
  else if Button.left ∈ pressed then
    { s with current_index := (s.current_index - 1) % (s.programs.length : ℤ),
             last_button_time := now }
  else if Button.right ∈ pressed then
    { s with current_index := (s.current_index + 1) % (s.programs.length : ℤ),
             last_button_time := now }
  else if Button.center ∈ pressed then
    { s with run_requested := true, last_button_time := now }
  else s

/-- Python's `str.split(sep)` for a single-character separator, on the
character list of the string: every occurrence of `sep` splits, empty
fragments are kept, and the result is never the empty list. -/
def py_split (sep : Char) : List Char → List (List Char)
  | [] => [[]]
  | c :: rest =>
      let r := py_split sep rest
      if c = sep then [] :: r
      else
        match r with
        | [] => [[c]]
        | h :: t => (c :: h) :: t

/-- Python's `str.strip()`: drop whitespace from both ends. -/
def py_strip (s : List Char) : List Char :=
  ((s.dropWhile Char.isWhitespace).reverse.dropWhile Char.isWhitespace).reverse

/-- Embeds `_process_buffered_commands` (lines 714-732): the buffer is split on
newline, the final (possibly incomplete) fragment becomes the new buffer,
and every other fragment is stripped and, when non-empty, dispatched to
`_process_command_line` in order. Returns the new buffer and the
dispatched lines. -/
def process_buffered_commands (buffer : List Char) :
    List Char × List (List Char) :=
  let lines := py_split '\n' buffer
  let newBuffer := lines.getLastD []
  let dispatched := (lines.dropLast.map py_strip).filter (fun l => l ≠ [])
  (newBuffer, dispatched)

/-- The per-byte body of the read loop in `process_commands`
(lines 689-704): the character is appended to the buffer and, when it is
a newline, the buffer is drained by `_process_buffered_commands`. -/
def feed_char (buffer : List Char) (c : Char) : List Char × List (List Char) :=
  let buffer1 := buffer ++ [c]
  if c = '\n' then process_buffered_commands buffer1 else (buffer1, [])

/-- Feeding a stream of bytes one at a time through `feed_char`,
accumulating the dispatched lines in arrival order. -/
def feed_chars (buffer : List Char) (cs : List Char) :
    List Char × List (List Char) :=
  cs.foldl (fun st c =>
    let r := feed_char st.1 c
    (r.1, st.2 ++ r.2)) (buffer, [])

/-- The outcome of `_process_command_line` for one line: either the
command was executed, or an exception was caught and logged by one of the
`try`/`except` boundaries (lines 735-745), turning the failure into a log
message instead of propagating it. -/
inductive LineOutcome where
  | executed
  | errorLogged (msg : String)
  deriving Repr, DecidableEq

/-- Embeds `_process_command_line` (lines 735-745) with the external JSON parser
and the command executor as parameters: a parse failure or an execution
failure is caught and becomes a logged-error outcome; the function is
total and always returns to its caller. -/
def process_command_line (parse : String → Except String Command)
    (exec : Command → Except String Unit) (line : String) : LineOutcome :=
  match parse line with
  | Except.error e => LineOutcome.errorLogged e
  | Except.ok cmd =>
      match exec cmd with
      | Except.error e => LineOutcome.errorLogged e
      | Except.ok _ => LineOutcome.executed

/-- Dispatching a list of complete lines in order, as the loop in
`_process_buffered_commands` does: each line is processed independently
and produces exactly one outcome. -/
def process_lines (parse : String → Except String Command)
    (exec : Command → Except String Unit) : List String → List LineOutcome
  | [] => []
  | l :: ls => process_command_line parse exec l :: process_lines parse exec ls

/-- A two-step all-motion command sequence used as a concrete input. -/
def demo_sequence : List Command :=
  [{ action := some "turn", angle := some 90, stop_behavior := some "brake" },
   { action := some "drive", distance := some 50 }]

/-- A program entry whose number is not 1, used as a concrete input. -/
def demo_program : MenuProgram := { num := 7, name := "seven" }

/-- A two-program menu state in `"menu"` with the second program
highlighted, used as a concrete input. -/
def demo_menu : MenuState :=
  { programs := [{ num := 1, name := "one" }, { num := 2, name := "two" }],
    current_index := 1, active := true, state := "menu",
    last_button_time := 0, run_requested := false }

/-- A concrete stand-in for the external JSON parser: accepts only the
line `"go"`. -/
def demo_parse : String → Except String Command := fun line =>
  if line = "go" then Except.ok {} else Except.error "parse error"

/-- A concrete stand-in for the command executor that always succeeds. -/
def demo_exec : Command → Except String Unit := fun _ => Except.ok ()

lemma addLoopLe_gt (x : ℚ) : -180 < addLoopLe x := by
  induction x using addLoopLe.induct with
  | case1 x h ih =>
    rw [addLoopLe]
    simpa [h] using ih
  | case2 x h =>
    rw [addLoopLe]
    simp only [dif_neg h]
    linarith

lemma addLoopLe_eq_self {x : ℚ} (h : -180 < x) : addLoopLe x = x := by
  rw [addLoopLe]
  simp only [dif_neg (by linarith : ¬ x ≤ -180)]

lemma addLoopLe_shift (x : ℚ) : ∃ k : ℤ, addLoopLe x = x + 360 * k := by
  induction x using addLoopLe.induct with
  | case1 x h ih =>
    obtain ⟨k, hk⟩ := ih
    refine ⟨k + 1, ?_⟩
    rw [addLoopLe]
    simp only [dif_pos h]
    rw [hk]
    push_cast
    ring
  | case2 x h =>
    refine ⟨0, ?_⟩
    rw [addLoopLe]
    simp only [dif_neg h]
    ring

lemma subLoop_le (x : ℚ) : subLoop x ≤ 180 := by
  induction x using subLoop.induct with
  | case1 x h ih =>
    rw [subLoop]
    simpa [h] using ih
  | case2 x h =>
    rw [subLoop]
    simp only [dif_neg h]
    linarith

lemma subLoop_gt (x : ℚ) : -180 < x → -180 < subLoop x := by
  induction x using subLoop.induct with
  | case1 x h ih =>
    intro _
    rw [subLoop]
    simp only [dif_pos h]
    exact ih (by linarith)
  | case2 x h =>
    intro hx
    rw [subLoop]
    simpa [h] using hx

lemma subLoop_eq_self {x : ℚ} (h : x ≤ 180) : subLoop x = x := by
  rw [subLoop]
  simp only [dif_neg (by linarith : ¬ x > 180)]

lemma subLoop_shift (x : ℚ) : ∃ k : ℤ, subLoop x = x + 360 * k := by
  induction x using subLoop.induct with
  | case1 x h ih =>
    obtain ⟨k, hk⟩ := ih
    refine ⟨k - 1, ?_⟩
    rw [subLoop]
    simp only [dif_pos h]
    rw [hk]
    push_cast
    ring
  | case2 x h =>
    refine ⟨0, ?_⟩
    rw [subLoop]
    simp only [dif_neg h]
    ring

lemma addLoopLt_ge (x : ℚ) : -180 ≤ addLoopLt x := by
  induction x using addLoopLt.induct with
  | case1 x h ih =>
    rw [addLoopLt]
    simpa [h] using ih
  | case2 x h =>
    rw [addLoopLt]
    simp only [dif_neg h]
    linarith

lemma addLoopLt_le (x : ℚ) : x ≤ 180 → addLoopLt x ≤ 180 := by
  induction x using addLoopLt.induct with
  | case1 x h ih =>
    intro _
    rw [addLoopLt]
    simp only [dif_pos h]
    exact ih (by linarith)
  | case2 x h =>
    intro hx
    rw [addLoopLt]
    simpa [h] using hx

lemma addLoopLt_shift (x : ℚ) : ∃ k : ℤ, addLoopLt x = x + 360 * k := by
  induction x using addLoopLt.induct with
  | case1 x h ih =>
    obtain ⟨k, hk⟩ := ih
    refine ⟨k + 1, ?_⟩
    rw [addLoopLt]
    simp only [dif_pos h]
    rw [hk]
    push_cast
    ring
  | case2 x h =>
    refine ⟨0, ?_⟩
    rw [addLoopLt]
    simp only [dif_neg h]
    ring

lemma addLoopLe_step {x : ℚ} (h : x ≤ -180) : addLoopLe x = addLoopLe (x + 360) := by
  rw [addLoopLe]
  simp only [dif_pos h]

lemma subLoop_step {x : ℚ} (h : x > 180) : subLoop x = subLoop (x - 360) := by
  rw [subLoop]
  simp only [dif_pos h]

lemma addLoopLt_step {x : ℚ} (h : x < -180) : addLoopLt x = addLoopLt (x + 360) := by
  rw [addLoopLt]
  simp only [dif_pos h]

lemma addLoopLt_eq_self {x : ℚ} (h : -180 ≤ x) : addLoopLt x = x := by
  rw [addLoopLt]
  simp only [dif_neg (by linarith : ¬ x < -180)]

lemma normalize_heading_mem (x : ℚ) :
    -180 < normalize_heading x ∧ normalize_heading x ≤ 180 := by
  unfold normalize_heading
  exact ⟨subLoop_gt _ (addLoopLe_gt x), subLoop_le _⟩

lemma normalize_heading_eq_self {x : ℚ} (h1 : -180 < x) (h2 : x ≤ 180) :
    normalize_heading x = x := by
  unfold normalize_heading
  rw [addLoopLe_eq_self h1, subLoop_eq_self h2]

lemma arc_normalize_mem (x : ℚ) :
    -180 ≤ arc_normalize x ∧ arc_normalize x ≤ 180 := by
  unfold arc_normalize
  exact ⟨addLoopLt_ge _, addLoopLt_le _ (subLoop_le x)⟩

lemma arc_normalize_shift (x : ℚ) : ∃ k : ℤ, arc_normalize x = x + 360 * k := by
  unfold arc_normalize
  obtain ⟨k1, hk1⟩ := subLoop_shift x
  obtain ⟨k2, hk2⟩ := addLoopLt_shift (subLoop x)
  refine ⟨k1 + k2, ?_⟩
  rw [hk2, hk1]
  push_cast
  ring

lemma send_telemetry_emit {s : TelemetryState} {now : ℤ}
    (h : (send_telemetry s now).2 = true) :
    s.interval_ms ≤ now - s.last_time ∧ (send_telemetry s now).1.last_time = now := by
  by_cases h1 : s.enabled
  · by_cases h2 : now - s.last_time < s.interval_ms
    · simp [send_telemetry, h1, h2] at h
    · refine ⟨not_lt.mp h2, ?_⟩
      simp [send_telemetry, h1, h2]
  · simp [send_telemetry, h1] at h

lemma send_telemetry_no_emit {s : TelemetryState} {now : ℤ}
    (h : (send_telemetry s now).2 = false) :
    (send_telemetry s now).1 = s := by
  by_cases h1 : s.enabled
  · by_cases h2 : now - s.last_time < s.interval_ms
    · simp [send_telemetry, h1, h2]
    · simp [send_telemetry, h1, h2] at h
  · simp [send_telemetry, h1]

lemma send_telemetry_interval_eq (s : TelemetryState) (now : ℤ) :
    (send_telemetry s now).1.interval_ms = s.interval_ms := by
  unfold send_telemetry
  split_ifs <;> rfl

lemma telemetry_run_head :
    ∀ (ts : List ℤ) (s : TelemetryState) (u : ℤ),
      (telemetry_run s ts).head? = some u → s.interval_ms ≤ u - s.last_time := by
  intro ts
  induction ts with
  | nil => intro s u h; simp [telemetry_run] at h
  | cons t ts ih =>
    intro s u h
    cases hb : (send_telemetry s t).2 with
    | false =>
      simp only [telemetry_run, hb, if_neg Bool.false_ne_true] at h
      have h2 := ih (send_telemetry s t).1 u h
      rwa [send_telemetry_no_emit hb] at h2
    | true =>
      have h3 := (send_telemetry_emit hb).1
      simp [telemetry_run, hb] at h
      subst h
      exact h3

lemma telemetry_run_chain :
    ∀ (ts : List ℤ) (s : TelemetryState),
      List.Chain' (fun a b => s.interval_ms ≤ b - a) (telemetry_run s ts) := by
  intro ts
  induction ts with
  | nil => intro s; simp [telemetry_run]
  | cons t ts ih =>
    intro s
    cases hb : (send_telemetry s t).2 with
    | false =>
      have hr : telemetry_run s (t :: ts) =
          telemetry_run (send_telemetry s t).1 ts := by
        simp [telemetry_run, hb]
      rw [hr, send_telemetry_no_emit hb]
      exact ih s
    | true =>
      have hr : telemetry_run s (t :: ts) =
          t :: telemetry_run (send_telemetry s t).1 ts := by
        simp [telemetry_run, hb]
      rw [hr, List.chain'_cons']
      constructor
      · intro y hy
        have hy2 : (telemetry_run (send_telemetry s t).1 ts).head? = some y :=
          Option.mem_def.mp hy
        have h2 := telemetry_run_head ts (send_telemetry s t).1 y hy2
        rw [send_telemetry_interval_eq, (send_telemetry_emit hb).2] at h2
        exact h2
      · have h := ih (send_telemetry s t).1
        simpa only [send_telemetry_interval_eq] using h

lemma process_menu_right {s : MenuState} {now : ℤ}
    (ha : s.active = true) (hs : s.state = "menu")
    (hd : menu_button_debounce_ms ≤ now - s.last_button_time) :
    process_menu_buttons s true now [Button.right] =
      { s with current_index := (s.current_index + 1) % (s.programs.length : ℤ),
               last_button_time := now } := by
  unfold process_menu_buttons
  simp [ha, hs, not_lt.mpr hd]

lemma process_menu_left {s : MenuState} {now : ℤ}
    (ha : s.active = true) (hs : s.state = "menu")
    (hd : menu_button_debounce_ms ≤ now - s.last_button_time) :
    process_menu_buttons s true now [Button.left] =
      { s with current_index := (s.current_index - 1) % (s.programs.length : ℤ),
               last_button_time := now } := by
  unfold process_menu_buttons
  simp [ha, hs, not_lt.mpr hd]

lemma process_menu_center {s : MenuState} {now : ℤ}
    (ha : s.active = true) (hs : s.state = "menu")
    (hd : menu_button_debounce_ms ≤ now - s.last_button_time) :
    process_menu_buttons s true now [Button.center] =
      { s with run_requested := true, last_button_time := now } := by
  unfold process_menu_buttons
  simp [ha, hs, not_lt.mpr hd]

lemma process_menu_debounce_noop {s : MenuState} (hub : Bool) {now : ℤ}
    (pressed : List Button)
    (hd : now - s.last_button_time < menu_button_debounce_ms) :
    process_menu_buttons s hub now pressed = s := by
  unfold process_menu_buttons
  by_cases h1 : ¬ (hub = true) ∨ ¬ (s.active = true) ∨ s.state ≠ "menu"
  · rw [if_pos h1]
  · rw [if_neg h1, if_pos hd]

/-- C1: for every non-empty command sequence of motion actions, the
dispatcher forces `stop_behavior` to `"coast_smart"` on every sub-command
except the last and to `"hold"` on the last, regardless of any
`stop_behavior` present in the input elements. -/
theorem sequence_stop_override (commands : List Command)
    (hne : commands ≠ [])
    (hmotion : ∀ c ∈ commands, ∃ a, c.action = some a ∧ a ∈ motion_actions)
    (i : Nat) (hi : i < commands.length) :
    ((execute_command_sequence commands).getD i {}).stop_behavior =
      if i = commands.length - 1 then some "hold" else some "coast_smart" := by
  have hget : (execute_command_sequence commands)[i]? =
      Option.map (fun cmd => sequence_step commands.length i cmd) commands[i]? := by
    simp [execute_command_sequence, List.getElem?_mapIdx]
  have hci : commands[i]? = some commands[i] := List.getElem?_eq_getElem hi
  obtain ⟨a, ha, hain⟩ := hmotion commands[i] (List.getElem_mem hi)
  rw [List.getD_eq_getElem?_getD, hget, hci]
  simp [sequence_step, ha, hain]

/-- C1 witness: on a concrete two-step motion sequence the second (last)
sub-command is forced to `"hold"` even though the input said `"brake"`. -/
theorem sequence_stop_override_witness :
    (demo_sequence ≠ [] ∧ 1 < demo_sequence.length) ∧
    ((execute_command_sequence demo_sequence).getD 1 {}).stop_behavior =
      if 1 = demo_sequence.length - 1 then some "hold" else some "coast_smart" :=
  ⟨⟨by decide, by decide⟩,
   sequence_stop_override demo_sequence (by decide)
     (by
       intro c hc
       simp only [demo_sequence, List.mem_cons, List.not_mem_nil, or_false] at hc
       rcases hc with h | h <;> subst h
       · exact ⟨"turn", rfl, by decide⟩
       · exact ⟨"drive", rfl, by decide⟩)
     1 (by decide)⟩

/-- C2 counterexample: for `startAngle = 180`, `endAngle = 0` the code
derives the sweep angle `-180`, whereas normalising `endAngle − startAngle`
into the half-open interval (−180, 180] (the rule the claim states, which
is exactly what `_normalize_heading` computes) yields `180`; the derived
angle is therefore not the claimed normalised value and lies outside
(−180, 180]. -/
theorem arc_sweep_half_open_counterexample :
    arc_angle { startAngle := some 180, endAngle := some 0 } = some (-180) ∧
    normalize_heading (0 - 180) = 180 ∧ ((-180 : ℚ) ≠ 180) := by
  refine ⟨?_, ?_, by norm_num⟩
  · have h : arc_normalize ((0 : ℚ) - 180) = -180 := by
      unfold arc_normalize
      rw [subLoop_eq_self (by norm_num), addLoopLt_eq_self (by norm_num)]
      norm_num
    simp [arc_angle]
    convert h using 2 <;> norm_num
  · unfold normalize_heading
    rw [addLoopLe_step (by norm_num), show (0 - 180 + 360 : ℚ) = 180 by norm_num,
        addLoopLe_eq_self (by norm_num), subLoop_eq_self (by norm_num)]

/-- C2 (amended): when `angle` is absent and both `startAngle` and
`endAngle` are present, the executed sweep angle is `endAngle − startAngle`
shifted by an integer multiple of 360 into the closed interval
[−180, 180] (a difference that lands exactly on −180 stays at −180 rather
than mapping to 180); in particular `startAngle = 350`, `endAngle = 10`
derives the wrap-around short path `20`, not `-340`. -/
theorem arc_sweep_amended :
    (∀ (c : Command) (s e : ℚ), c.angle = none → c.startAngle = some s →
        c.endAngle = some e →
        ∃ k : ℤ, arc_angle c = some (e - s + 360 * k) ∧
          -180 ≤ e - s + 360 * k ∧ e - s + 360 * k ≤ 180) ∧
    arc_angle { startAngle := some 350, endAngle := some 10 } = some 20 := by
  constructor
  · intro c s e ha hs he
    obtain ⟨k, hk⟩ := arc_normalize_shift (e - s)
    obtain ⟨hl, hr⟩ := arc_normalize_mem (e - s)
    refine ⟨k, ?_, ?_, ?_⟩
    · simp [arc_angle, ha, hs, he, hk]
    · rw [← hk]; exact hl
    · rw [← hk]; exact hr
  · have h : arc_normalize ((10 : ℚ) - 350) = 20 := by
      unfold arc_normalize
      rw [subLoop_eq_self (by norm_num), addLoopLt_step (by norm_num),
          show (10 - 350 + 360 : ℚ) = 20 by norm_num,
          addLoopLt_eq_self (by norm_num)]
    simp [arc_angle]
    convert h using 2 <;> norm_num

/-- C2 witness: the general part of the amended claim instantiated at the
spec's own scenario `startAngle = 350`, `endAngle = 10`. -/
theorem arc_sweep_amended_witness :
    ∃ k : ℤ, arc_angle { startAngle := some 350, endAngle := some 10 } =
        some ((10 : ℚ) - 350 + 360 * k) ∧
      -180 ≤ (10 : ℚ) - 350 + 360 * k ∧ (10 : ℚ) - 350 + 360 * k ≤ 180 :=
  arc_sweep_amended.1 { startAngle := some 350, endAngle := some 10 } 350 10
    rfl rfl rfl

/-- C3 counterexample: a dispatched command whose `stop_behavior` is
`"smart"` resolves to `Stop.hold` in `_execute_single_command`, not to
`Stop.coast_smart` as the claim's table requires. -/
theorem dispatcher_stop_resolution_counterexample :
    single_stop_param (some "smart") = Stop.hold ∧
    Stop.hold ≠ Stop.coast_smart :=
  ⟨by decide, by decide⟩

/-- C3 (amended): commands executed by the dispatcher resolve
`stop_behavior` with an exact-match table — only `"coast_smart"` maps to
COAST_SMART, `"coast"` to COAST, `"brake"` to BRAKE, and anything else
(including an absent field, `"smart"` and `"coast-smart"`) to HOLD. The
claimed alias-and-lowercase table instead belongs to
`_resolve_stop_behavior`, which only the generated pseudo-program helpers
use. -/
theorem stop_resolution_amended :
    (single_stop_param (some "coast_smart") = Stop.coast_smart ∧
     single_stop_param (some "coast") = Stop.coast ∧
     single_stop_param (some "brake") = Stop.brake ∧
     single_stop_param none = Stop.hold ∧
     single_stop_param (some "smart") = Stop.hold ∧
     single_stop_param (some "coast-smart") = Stop.hold) ∧
    (∀ s : String, s ≠ "coast_smart" → s ≠ "coast" → s ≠ "brake" →
        single_stop_param (some s) = Stop.hold) ∧
    (resolve_stop_behavior (some "coast_smart") = Stop.coast_smart ∧
     resolve_stop_behavior (some "smart") = Stop.coast_smart ∧
     resolve_stop_behavior (some "coast-smart") = Stop.coast_smart ∧
     resolve_stop_behavior (some "coast") = Stop.coast ∧
     resolve_stop_behavior (some "brake") = Stop.brake ∧
     resolve_stop_behavior none = Stop.hold) := by
  refine ⟨by decide, ?_, by decide⟩
  intro s h1 h2 h3
  simp [single_stop_param, h1, h2, h3]

/-- C3 witness: the exact-match fallback of the amended claim at the
concrete unknown string `"fast"`. -/
theorem stop_resolution_amended_witness :
    single_stop_param (some "fast") = Stop.hold :=
  stop_resolution_amended.2.1 "fast" (by decide) (by decide) (by decide)

/-- C4: heading normalization is range-closed and idempotent — for every
rational `x`, `_normalize_heading` maps `x` into (−180, 180], and applying
it twice equals applying it once. -/
theorem normalize_heading_range_idempotent (x : ℚ) :
    (-180 < normalize_heading x ∧ normalize_heading x ≤ 180) ∧
    normalize_heading (normalize_heading x) = normalize_heading x := by
  obtain ⟨h1, h2⟩ := normalize_heading_mem x
  exact ⟨⟨h1, h2⟩, normalize_heading_eq_self h1 h2⟩

/-- C5: feeding the five bytes of `"a\nb\nc"` one at a time dispatches
exactly the lines `"a"` then `"b"` in order and retains `"c"` as the
pending buffer; and a non-newline byte never triggers a dispatch, it is
only appended to the buffer. -/
theorem command_channel_reassembly :
    feed_chars [] ("a\nb\nc".toList) = (['c'], [['a'], ['b']]) ∧
    (∀ (buffer : List Char) (c : Char), c ≠ '\n' →
        feed_char buffer c = (buffer ++ [c], [])) := by
  refine ⟨by decide, ?_⟩
  intro buffer c hc
  simp [feed_char, hc]

/-- C5 witness: the no-dispatch part applied to the concrete non-newline
byte `'c'` after the scenario's prefix. -/
theorem command_channel_reassembly_witness :
    ('c' ≠ '\n') ∧ feed_char [] 'c' = ([] ++ ['c'], []) :=
  ⟨by decide, command_channel_reassembly.2 [] 'c' (by decide)⟩

/-- C6: `send_telemetry` emits at time `now` only when at least the
configured interval has elapsed since the last emission, and then advances
the last-emission timestamp to `now`; a non-emitting call leaves the state
unchanged; `set_telemetry_interval` clamps to at least 50; and along any
sequence of calls with a fixed configuration the emitted timestamps are
spaced at least one interval apart. -/
theorem telemetry_spacing :
    (∀ (s : TelemetryState) (now : ℤ),
        (send_telemetry s now).2 = true →
          s.interval_ms ≤ now - s.last_time ∧
          (send_telemetry s now).1.last_time = now) ∧
    (∀ (s : TelemetryState) (now : ℤ),
        (send_telemetry s now).2 = false → (send_telemetry s now).1 = s) ∧
    (∀ (s : TelemetryState) (i : ℤ),
        (set_telemetry_interval s i).interval_ms = max 50 i ∧
        50 ≤ (set_telemetry_interval s i).interval_ms) ∧
    (∀ (s : TelemetryState) (ts : List ℤ),
        List.Chain' (fun a b => s.interval_ms ≤ b - a) (telemetry_run s ts)) :=
  ⟨fun _ _ h => send_telemetry_emit h,
   fun _ _ h => send_telemetry_no_emit h,
   fun s i => ⟨rfl, le_max_left 50 i⟩,
   fun s ts => telemetry_run_chain ts s⟩

/-- C6 witness: from the initial state (interval 100, last emission 0) a
call at time 100 emits and advances the timestamp to 100. -/
theorem telemetry_spacing_witness :
    (send_telemetry init_telemetry 100).2 = true ∧
    (init_telemetry.interval_ms ≤ 100 - init_telemetry.last_time ∧
     (send_telemetry init_telemetry 100).1.last_time = 100) :=
  ⟨by decide, telemetry_spacing.1 init_telemetry 100 (by decide)⟩

/-- C7 (code bug): `init_hub_menu` does transition `idle → menu` and reset
the index to 0, but it displays the literal number 1
(`_hub.display.number(1)`, line 773) rather than the `num` field of the
first program: with a single program numbered 7 the display shows 1 ≠ 7. -/
theorem init_menu_display_literal_one :
    ((init_hub_menu init_menu_state true [demo_program]).1.state = "menu" ∧
     (init_hub_menu init_menu_state true [demo_program]).1.current_index = 0 ∧
     (init_hub_menu init_menu_state true [demo_program]).1.active = true) ∧
    (init_hub_menu init_menu_state true [demo_program]).2 = some 1 ∧
    ([demo_program].headD demo_program).num = 7 ∧ (1 : ℤ) ≠ 7 := by
  decide

/-- C8: in state `"menu"` past the debounce window, RIGHT increments and
LEFT decrements the highlighted index modulo the program count, CENTER
sets the run-request flag, every accepted press stores `now` in the single
shared timestamp, an accepted RIGHT wraps `k−1` back to `0` and keeps the
index in `[0, k)`, and any press within the 300-unit debounce window is a
no-op. -/
theorem menu_navigation :
    (∀ (s : MenuState) (now : ℤ), s.active = true → s.state = "menu" →
        menu_button_debounce_ms ≤ now - s.last_button_time →
        (process_menu_buttons s true now [Button.right]).current_index =
          (s.current_index + 1) % (s.programs.length : ℤ) ∧
        (process_menu_buttons s true now [Button.right]).last_button_time = now) ∧
    (∀ (s : MenuState) (now : ℤ), s.active = true → s.state = "menu" →
        menu_button_debounce_ms ≤ now - s.last_button_time →
        (process_menu_buttons s true now [Button.left]).current_index =
          (s.current_index - 1) % (s.programs.length : ℤ) ∧
        (process_menu_buttons s true now [Button.left]).last_button_time = now) ∧
    (∀ (s : MenuState) (now : ℤ), s.active = true → s.state = "menu" →
        menu_button_debounce_ms ≤ now - s.last_button_time →
        (process_menu_buttons s true now [Button.center]).run_requested = true ∧
        (process_menu_buttons s true now [Button.center]).last_button_time = now) ∧
    (∀ (s : MenuState) (hub : Bool) (now : ℤ) (pressed : List Button),
        now - s.last_button_time < menu_button_debounce_ms →
        process_menu_buttons s hub now pressed = s) ∧
    (∀ (s : MenuState) (now : ℤ), s.active = true → s.state = "menu" →
        menu_button_debounce_ms ≤ now - s.last_button_time →
        1 ≤ s.programs.length →
        0 ≤ s.current_index → s.current_index < (s.programs.length : ℤ) →
        (process_menu_buttons s true now [Button.right]).current_index =
          (if s.current_index + 1 = (s.programs.length : ℤ) then 0
           else s.current_index + 1) ∧
        0 ≤ (process_menu_buttons s true now [Button.right]).current_index ∧
        (process_menu_buttons s true now [Button.right]).current_index <
          (s.programs.length : ℤ)) := by
  refine ⟨?_, ?_, ?_, ?_, ?_⟩
  · intro s now ha hs hd
    rw [process_menu_right ha hs hd]
    exact ⟨rfl, rfl⟩
  · intro s now ha hs hd
    rw [process_menu_left ha hs hd]
    exact ⟨rfl, rfl⟩
  · intro s now ha hs hd
    rw [process_menu_center ha hs hd]
    exact ⟨rfl, rfl⟩
  · intro s hub now pressed hd
    exact process_menu_debounce_noop hub pressed hd
  · intro s now ha hs hd hlen h0 hk
    rw [process_menu_right ha hs hd]
    have hkpos : (0 : ℤ) < (s.programs.length : ℤ) := by exact_mod_cast hlen
    refine ⟨?_, Int.emod_nonneg _ (ne_of_gt hkpos), Int.emod_lt_of_pos _ hkpos⟩
    by_cases he : s.current_index + 1 = (s.programs.length : ℤ)
    · rw [if_pos he, he, Int.emod_self]
    · rw [if_neg he]
      exact Int.emod_eq_of_lt (by linarith) (by omega)

/-- C8 witness: in a two-program menu with index 1, an accepted RIGHT
press at time 300 wraps the index back to 0. -/
theorem menu_navigation_witness :
    (demo_menu.active = true ∧ demo_menu.state = "menu" ∧
     menu_button_debounce_ms ≤ 300 - demo_menu.last_button_time ∧
     1 ≤ demo_menu.programs.length ∧ 0 ≤ demo_menu.current_index ∧
     demo_menu.current_index < (demo_menu.programs.length : ℤ)) ∧
    ((process_menu_buttons demo_menu true 300 [Button.right]).current_index =
      (if demo_menu.current_index + 1 = (demo_menu.programs.length : ℤ) then 0
       else demo_menu.current_index + 1) ∧
     0 ≤ (process_menu_buttons demo_menu true 300 [Button.right]).current_index ∧
     (process_menu_buttons demo_menu true 300 [Button.right]).current_index <
       (demo_menu.programs.length : ℤ)) :=
  ⟨⟨rfl, rfl, by decide, by decide, by decide, by decide⟩,
   menu_navigation.2.2.2.2 demo_menu 300 rfl rfl (by decide) (by decide)
     (by decide) (by decide)⟩

/-- C9: every line handed to `_process_command_line` produces exactly one
outcome — a parse failure or an execution failure is converted into a
logged-error outcome instead of propagating — and each line of a batch is
processed independently, so a failed line never stops later lines. -/
theorem dispatcher_error_containment :
    (∀ (parse : String → Except String Command)
        (exec : Command → Except String Unit) (lines : List String),
        (process_lines parse exec lines).length = lines.length) ∧
    (∀ (parse : String → Except String Command)
        (exec : Command → Except String Unit) (line : String) (e : String),
        parse line = Except.error e →
        process_command_line parse exec line = LineOutcome.errorLogged e) ∧
    (∀ (parse : String → Except String Command)
        (exec : Command → Except String Unit) (cmd : Command)
        (line : String) (e : String),
        parse line = Except.ok cmd → exec cmd = Except.error e →
        process_command_line parse exec line = LineOutcome.errorLogged e) ∧
    (∀ (parse : String → Except String Command)
        (exec : Command → Except String Unit) (bad : String)
        (rest : List String),
        process_lines parse exec (bad :: rest) =
          process_command_line parse exec bad :: process_lines parse exec rest) := by
  refine ⟨?_, ?_, ?_, fun _ _ _ _ => rfl⟩
  · intro parse exec lines
    induction lines with
    | nil => rfl
    | cons l ls ih => simp [process_lines, ih]
  · intro parse exec line e h
    simp [process_command_line, h]
  · intro parse exec cmd line e h1 h2
    simp [process_command_line, h1, h2]

/-- C9 witness: with a concrete parser that rejects everything but
`"go"`, the line `"bad json"` yields a logged-error outcome. -/
theorem dispatcher_error_containment_witness :
    demo_parse "bad json" = Except.error "parse error" ∧
    process_command_line demo_parse demo_exec "bad json" =
      LineOutcome.errorLogged "parse error" :=
  ⟨rfl,
   dispatcher_error_containment.2.1 demo_parse demo_exec "bad json"
     "parse error" rfl⟩

/-- C10: the `set_telemetry` branch sets the telemetry-enabled flag to the
command's `enabled` field with default `true`; in particular a command
carrying only a (non-zero) `interval` also re-enables telemetry while
updating the clamped interval. -/
theorem set_telemetry_reenables :
    (∀ (s : TelemetryState) (cmd : Command),
        (execute_set_telemetry s cmd).enabled = cmd.enabled.getD true) ∧
    (∀ (s : TelemetryState) (i : ℤ), i ≠ 0 →
        (execute_set_telemetry s { interval := some i }).enabled = true ∧
        (execute_set_telemetry s { interval := some i }).interval_ms =
          max 50 i) := by
  constructor
  · intro s cmd
    cases h : cmd.interval with
    | none => simp [execute_set_telemetry, h, set_telemetry_enabled]
    | some i =>
      by_cases hi : i = 0 <;>
        simp [execute_set_telemetry, h, hi, set_telemetry_enabled,
          set_telemetry_interval]
  · intro s i hi
    simp [execute_set_telemetry, hi, set_telemetry_enabled,
      set_telemetry_interval]

/-- C10 witness: a `set_telemetry` command with only `interval = 250`
re-enables telemetry and sets the interval to 250. -/
theorem set_telemetry_reenables_witness :
    ((250 : ℤ) ≠ 0) ∧
    ((execute_set_telemetry init_telemetry { interval := some 250 }).enabled =
        true ∧
     (execute_set_telemetry init_telemetry
        { interval := some 250 }).interval_ms = max 50 250) :=
  ⟨by decide, set_telemetry_reenables.2 init_telemetry 250 (by decide)⟩

end PybricksPilot
